import Mathlib

/-!
Shallow embedding of `src/01. IDEAL BFPJC/src/analysis_tools.py`
(class `AnalysisTools`, pandas based survey aggregation).

Modelling conventions:
* A pandas `DataFrame` is a list of column names plus a list of rows; a row
  is an association list from column names to values.  A column that is
  missing from a row's association list is a missing value (pandas `NaN`).
* Cell values are strings or rationals (`Value`); pandas float arithmetic is
  modelled over `ℚ`.
* `groupby` on key columns drops rows in which a key cell is missing
  (pandas `dropna=True` default), `nunique` counts distinct non-missing
  values, and `pivot_table(values=c, aggfunc=count)` counts non-missing
  cells of `c` per group.
* Methods that can raise a pandas `KeyError` (a referenced column absent
  from the table) return `Option`/`Except`; the held state is never
  mutated on failure.
* `round(2)` is modelled as rounding `100 * x` to the nearest integer;
  the tie-breaking rule (numpy rounds half to even, `round` here rounds
  half up) is not exercised by any statement below.
* Output row order (the final `sort_values`/`sort_index` calls) is not
  modelled: results are lists keyed by the full grouping key, and every
  statement below reads them by key, never by position.
* Python `str.strip`/`str.replace`/`str.lower` are modelled on `List Char`;
  `str.lower` is modelled on the ASCII range.
-/

inductive Value where
  | str (s : String)
  | num (q : ℚ)
deriving DecidableEq

abbrev Row := List (String × Value)

/-- A cell of a row; `none` is a missing value (pandas `NaN`) or an absent
column. -/
def getCell (r : Row) (c : String) : Option Value :=
  r.lookup c

structure DataFrame where
  cols : List String
  rows : List Row
deriving DecidableEq

def DataFrame.hasCol (df : DataFrame) (c : String) : Bool :=
  df.cols.contains c

/-- The state held by the Python class: the dataframe (stored as a copy at
construction time), the total-respondent scalar and the four configurable
role-column names, with the constructor's default values. -/
structure AnalysisTools where
  df : DataFrame
  total_respondents : ℤ
  question_col : String := "question"
  subquest_col : String := "subquestion"
  respondent_col : String := "respondent_id"
  answer_col : String := "answer"
deriving DecidableEq

/-! ### Column-name sanitization (`sanitize_columns`) -/

/-- Python whitespace stripped by `str.strip()` (ASCII range). -/
def isSpaceChar (c : Char) : Bool :=
  c = ' ' || c = '\t' || c = '\n' || c = '\r' || c = '\x0b' || c = '\x0c'

/-- `str.strip()` on a character list. -/
def trimChars (s : List Char) : List Char :=
  ((s.dropWhile isSpaceChar).reverse.dropWhile isSpaceChar).reverse

/-- The chained single-character replacements
`.replace(space, underscore).replace(period, underscore).replace(hyphen, underscore)`. -/
def substSpecial (c : Char) : Char :=
  if c = ' ' || c = '.' || c = '-' then '_' else c

/-- `.replace(open-paren, empty).replace(close-paren, empty)`: parenthesis
characters are deleted. -/
def keepChar (c : Char) : Bool :=
  !(c = '(' || c = ')')

/-- `.replace(double-underscore, underscore)`: one left-to-right pass over
the string, consuming non-overlapping occurrences, exactly as Python
`str.replace` does. -/
def collapseOnce : List Char → List Char
  | [] => []
  | [c] => [c]
  | c₁ :: c₂ :: rest =>
    if c₁ = '_' && c₂ = '_' then '_' :: collapseOnce rest
    else c₁ :: collapseOnce (c₂ :: rest)

/-- Whether a double underscore occurs somewhere in the string. -/
def hasDoubleUnderscore : List Char → Bool
  | [] => false
  | [_] => false
  | c₁ :: c₂ :: rest => (c₁ = '_' && c₂ = '_') || hasDoubleUnderscore (c₂ :: rest)

/-- ASCII uppercase-to-lowercase table backing the `str.lower()` model. -/
def lowerTable : List (Char × Char) :=
  [('A', 'a'), ('B', 'b'), ('C', 'c'), ('D', 'd'), ('E', 'e'), ('F', 'f'),
   ('G', 'g'), ('H', 'h'), ('I', 'i'), ('J', 'j'), ('K', 'k'), ('L', 'l'),
   ('M', 'm'), ('N', 'n'), ('O', 'o'), ('P', 'p'), ('Q', 'q'), ('R', 'r'),
   ('S', 's'), ('T', 't'), ('U', 'u'), ('V', 'v'), ('W', 'w'), ('X', 'x'),
   ('Y', 'y'), ('Z', 'z')]

/-- `str.lower()` on one character (ASCII model). -/
def lowerChar (c : Char) : Char :=
  match lowerTable.lookup c with
  | some d => d
  | none => c

/-- The whole cleanup applied to one column name by `sanitize_columns`:
strip, substitute space/period/hyphen by underscore, delete parentheses,
collapse double underscores in one pass, lowercase. -/
def sanitizeChars (s : List Char) : List Char :=
  (collapseOnce (((trimChars s).map substSpecial).filter keepChar)).map lowerChar

def sanitizeName (s : String) : String :=
  ⟨sanitizeChars s.data⟩

def renameRow (f : String → String) (r : Row) : Row :=
  r.map (fun p => (f p.1, p.2))

/-- `sanitize_columns`: renames every column of the held dataframe through
the cleanup above and stores the renamed dataframe back into the state
(the Python method also returns the renamed dataframe for convenience). -/
def sanitize_columns (t : AnalysisTools) : AnalysisTools :=
  { t with df := ⟨t.df.cols.map sanitizeName, t.df.rows.map (renameRow sanitizeName)⟩ }

/-! ### Shared filtering (`df[df[question_col].isin(q_list)]`) -/

/-- `Series.isin(q_list)` on one cell: true only for a non-missing string
cell whose string belongs to `q_list`. -/
def isinQ (v : Option Value) (qs : List String) : Bool :=
  match v with
  | some (Value.str s) => qs.contains s
  | _ => false

/-- The rows surviving `df[df[question_col].isin(q_list)]`. -/
def filteredRows (t : AnalysisTools) (qs : List String) : List Row :=
  t.df.rows.filter (fun r => isinQ (getCell r t.question_col) qs)

/-! ### `multi_response_analysis` -/

/-- `grouping_keys = group_cols + [question_col, subquest_col]`. -/
def mrKeyCols (t : AnalysisTools) (group_cols : List String) : List String :=
  group_cols ++ [t.question_col, t.subquest_col]

/-- The filtered rows that survive the groupby (all key cells non-missing),
as pairs of the grouping key tuple and the respondent cell. -/
def mrPairs (t : AnalysisTools) (qs : List String) (group_cols : List String) :
    List (List Value × Option Value) :=
  (filteredRows t qs).filterMap (fun r =>
    (List.mapM (fun c => getCell r c) (mrKeyCols t group_cols)).map
      (fun k => (k, getCell r t.respondent_col)))

/-- The non-missing respondent cells of the rows of one group. -/
def respondentsIn (ps : List (List Value × Option Value)) (k : List Value) : List Value :=
  (ps.filter (fun p => p.1 = k)).filterMap (fun p => p.2)

/-- `groupby(grouping_keys)[respondent_col].nunique()` for one group. -/
def mrCount (t : AnalysisTools) (qs : List String) (group_cols : List String)
    (k : List Value) : ℕ :=
  (respondentsIn (mrPairs t qs group_cols) k).dedup.length

structure MrEntry where
  key : List Value
  count : ℕ
  pct : ℚ
deriving DecidableEq

/-- Round to two decimal places (`.round(2)`). -/
def round2 (x : ℚ) : ℚ :=
  (round (100 * x) : ℤ) / 100

/-- `multi_response_analysis(q_list, group_cols)`: filter by `q_list`,
group by `group_cols + [question_col, subquest_col]`, count distinct
non-missing respondent identifiers per group, and divide by
`total_respondents` (times 100, rounded to 2 decimals).  `none` models the
`KeyError` raised when a referenced column is absent. -/
def multi_response_analysis (t : AnalysisTools) (qs : List String)
    (group_cols : List String) : Option (List MrEntry) :=
  if t.df.hasCol t.question_col && t.df.hasCol t.subquest_col &&
      t.df.hasCol t.respondent_col && group_cols.all t.df.hasCol then
    some (((mrPairs t qs group_cols).map Prod.fst).dedup.map (fun k =>
      { key := k,
        count := mrCount t qs group_cols k,
        pct := round2 ((mrCount t qs group_cols k : ℚ) /
          (t.total_respondents : ℚ) * 100) }))
  else none

/-- The distinct non-missing respondent identifiers of the whole filtered
table. -/
def distinctRespondents (t : AnalysisTools) (qs : List String) : ℕ :=
  ((filteredRows t qs).filterMap (fun r => getCell r t.respondent_col)).dedup.length

/-! ### `nominal_frequency_analysis` and `nominal_frequency_pivot` -/

/-- The `(question, group, answer)` grouping key of the nominal variants. -/
structure NomKey where
  question : Value
  group : Value
  answer : Value
deriving DecidableEq

/-- The `(question, group, answer)` key of one row, `none` when a key cell
is missing (the row is then dropped by the groupby / pivot index). -/
def nomKeyOfRow (r : Row) (q g a : String) : Option NomKey :=
  match getCell r q, getCell r g, getCell r a with
  | some qv, some gv, some av => some ⟨qv, gv, av⟩
  | _, _, _ => none

/-- The keyed rows entering `groupby([question_col, group_col, answer_col]).size()`. -/
def nomKeyed (t : AnalysisTools) (qs : List String) (g : String) : List NomKey :=
  (filteredRows t qs).filterMap (fun r => nomKeyOfRow r t.question_col g t.answer_col)

/-- The keyed rows entering the pivot table: same key, but a row only
counts if its respondent cell is non-missing (`aggfunc=count` counts
non-missing respondent values). -/
def pivKeyed (t : AnalysisTools) (qs : List String) (g : String) : List NomKey :=
  (filteredRows t qs).filterMap (fun r =>
    if (getCell r t.respondent_col).isSome then nomKeyOfRow r t.question_col g t.answer_col
    else none)

structure NomEntry where
  question : Value
  group : Value
  answer : Value
  count : ℕ
  pct : ℚ
deriving DecidableEq

/-- `Question_Total`: the per-question sum of the group counts, i.e. the
number of keyed rows carrying the given question value
(`groupby(level=0)[Count].transform(sum)`). -/
def questionTotal (K : List NomKey) (qv : Value) : ℕ :=
  (K.filter (fun k => k.question = qv)).length

/-- The two-pass Count / Question_Total / Percentage computation shared by
the two nominal variants, applied to the keyed rows. -/
def nomResult (K : List NomKey) : List NomEntry :=
  K.dedup.map (fun k =>
    { question := k.question, group := k.group, answer := k.answer,
      count := K.count k,
      pct := round2 ((K.count k : ℚ) / (questionTotal K k.question : ℚ) * 100) })

/-- `nominal_frequency_analysis(q_list, group_col)`: raw row counts per
`(question, group_col, answer)` with within-question percentages. -/
def nominal_frequency_analysis (t : AnalysisTools) (qs : List String)
    (g : String) : Option (List NomEntry) :=
  if t.df.hasCol t.question_col && t.df.hasCol g && t.df.hasCol t.answer_col then
    some (nomResult (nomKeyed t qs g))
  else none

/-- `nominal_frequency_pivot(q_list, group_col)`: the pivot-table variant,
counting non-missing respondent cells instead of raw rows. -/
def nominal_frequency_pivot (t : AnalysisTools) (qs : List String)
    (g : String) : Option (List NomEntry) :=
  if t.df.hasCol t.question_col && t.df.hasCol g && t.df.hasCol t.answer_col &&
      t.df.hasCol t.respondent_col then
    some (nomResult (pivKeyed t qs g))
  else none

/-! ### `grouped_summary_stats` -/

/-- The message of the `KeyError` raised by the eager validation loop (the
Python message additionally wraps the column name in single quotes). -/
def missingColMsg (c : String) : String :=
  "Column " ++ c ++ " not found in the DataFrame."

/-- Flattened statistic column name: `underscore.join((field, stat)).strip()`. -/
def statColName (field fname : String) : String :=
  ⟨trimChars (field ++ "_" ++ fname).data⟩

/-- The non-missing numeric cells of column `col` within one group. -/
def groupValues (t : AnalysisTools) (group_col col : String) (k : Value) : List ℚ :=
  (t.df.rows.filter (fun r => getCell r group_col = some k)).filterMap (fun r =>
    match getCell r col with
    | some (Value.num q) => some q
    | _ => none)

/-- `grouped_summary_stats(numeric_col_list, group_col, summary_funcs)`.
The validation loop scans `numeric_col_list + [group_col]` in order and
raises on the first missing column, before any aggregation.  A summary
function is modelled as a name plus a function on the group's non-missing
numeric values (the Python default list is `[mean, std, count]`; sample
standard deviation is irrational in general, so the statistics are kept
parametric — no statement below depends on their values). -/
def grouped_summary_stats (t : AnalysisTools) (numeric_col_list : List String)
    (group_col : String) (summary_funcs : List (String × (List ℚ → ℚ))) :
    Except String (List (Value × List (String × ℚ))) :=
  match (numeric_col_list ++ [group_col]).find? (fun c => ! t.df.hasCol c) with
  | some c => Except.error (missingColMsg c)
  | none =>
    Except.ok (((t.df.rows.filterMap (fun r => getCell r group_col)).dedup).map (fun k =>
      (k, (numeric_col_list.map (fun col =>
        summary_funcs.map (fun f => (statColName col f.1, f.2 (groupValues t group_col col k))))).flatten)))

/-! ### Concrete tables used by the scenarios -/

/-- One fully populated survey row. -/
def sampleRow (q s r a : String) : Row :=
  [("question", Value.str q), ("subquestion", Value.str s),
   ("respondent_id", Value.str r), ("answer", Value.str a)]

/-- The spec's scenario table: rows (Q1,S1,R1,Yes), (Q1,S1,R2,Yes),
(Q1,S2,R1,No). -/
def sampleDF : DataFrame :=
  ⟨["question", "subquestion", "respondent_id", "answer"],
   [sampleRow ("Q1") ("S1") ("R1") ("Yes"),
    sampleRow ("Q1") ("S1") ("R2") ("Yes"),
    sampleRow ("Q1") ("S2") ("R1") ("No")]⟩

def sampleTools : AnalysisTools :=
  { df := sampleDF, total_respondents := 4 }

/-- Table whose single column name has three consecutive periods. -/
def dotsTools : AnalysisTools :=
  { df := ⟨["a...b"], []⟩, total_respondents := 0 }

/-- Table with the column name of the spec's sanitize scenario. -/
def colorTools : AnalysisTools :=
  { df := ⟨[" Favorite Color (2023)."], []⟩, total_respondents := 0 }

/-- Table whose column name sanitizes to a stable name. -/
def cleanTools : AnalysisTools :=
  { df := ⟨["A b"], []⟩, total_respondents := 0 }

/-- Table with all three nominal role columns present, but whose single
row has missing group and answer cells. -/
def missingCellsTools : AnalysisTools :=
  { df := ⟨["question", "g", "answer"], [[("question", Value.str ("Q1"))]]⟩,
    total_respondents := 4 }

/-- Two distinct respondents but a constructed total-respondent count of 1. -/
def smallTotalTools : AnalysisTools :=
  { df := ⟨["question", "subquestion", "respondent_id", "answer"],
           [sampleRow ("Q1") ("S1") ("R1") ("Yes"),
            sampleRow ("Q1") ("S1") ("R2") ("Yes")]⟩,
    total_respondents := 1 }

/-- The scenario table with a constructed total-respondent count of 0. -/
def zeroTotalTools : AnalysisTools :=
  { df := sampleDF, total_respondents := 0 }

/-- Table with only a group column, for the missing-column validation. -/
def gssTools : AnalysisTools :=
  { df := ⟨["g"], []⟩, total_respondents := 0 }

/-- Expected output of the multi-response scenario on `sampleTools`. -/
def sampleMrResult : List MrEntry :=
  [{ key := [Value.str ("Q1"), Value.str ("S1")], count := 2, pct := 50 },
   { key := [Value.str ("Q1"), Value.str ("S2")], count := 1, pct := 25 }]

/-- Expected output of the nominal scenario on `sampleTools`. -/
def sampleNomResult : List NomEntry :=
  [{ question := Value.str ("Q1"), group := Value.str ("S1"),
     answer := Value.str ("Yes"), count := 2, pct := 6667 / 100 },
   { question := Value.str ("Q1"), group := Value.str ("S2"),
     answer := Value.str ("No"), count := 1, pct := 3333 / 100 }]

/-- Output of `multi_response_analysis` on `zeroTotalTools`: the division
by the zero total collapses every percentage. -/
def zeroMrResult : List MrEntry :=
  [{ key := [Value.str ("Q1"), Value.str ("S1")], count := 2, pct := 0 },
   { key := [Value.str ("Q1"), Value.str ("S2")], count := 1, pct := 0 }]

/-! ## Theorems -/

theorem lookup_mem {α β : Type} [BEq α] [LawfulBEq α] {l : List (α × β)} {a : α} {b : β}
    (h : l.lookup a = some b) : (a, b) ∈ l := by
  induction l with
  | nil => simp [List.lookup] at h
  | cons p rest ih =>
    rw [List.lookup] at h
    cases hab : (a == p.1) with
    | true =>
      cases p
      simp only [hab] at h
      simp only [beq_iff_eq] at hab
      simp only [Option.some.injEq] at h
      subst hab h
      exact List.mem_cons_self _ _
    | false =>
      cases p
      simp only [hab] at h
      exact List.mem_cons_of_mem _ (ih h)

theorem lowerTable_vals_fixed : ∀ p ∈ lowerTable, lowerTable.lookup p.2 = none := by decide

theorem lowerTable_vals_clean :
    ∀ p ∈ lowerTable, substSpecial p.2 = p.2 ∧ keepChar p.2 = true := by decide

theorem lowerChar_idem (c : Char) : lowerChar (lowerChar c) = lowerChar c := by
  cases h : lowerTable.lookup c with
  | none =>
    have hc : lowerChar c = c := by rw [lowerChar, h]
    rw [hc, hc]
  | some d =>
    have hc : lowerChar c = d := by rw [lowerChar, h]
    have hd : lowerTable.lookup d = none := lowerTable_vals_fixed (c, d) (lookup_mem h)
    rw [hc, lowerChar, hd]

theorem lowerChar_clean (c : Char) (h1 : substSpecial c = c) (h2 : keepChar c = true) :
    substSpecial (lowerChar c) = lowerChar c ∧ keepChar (lowerChar c) = true := by
  cases h : lowerTable.lookup c with
  | none =>
    have hc : lowerChar c = c := by rw [lowerChar, h]
    rw [hc]
    exact ⟨h1, h2⟩
  | some d =>
    have hc : lowerChar c = d := by rw [lowerChar, h]
    rw [hc]
    exact lowerTable_vals_clean (c, d) (lookup_mem h)

theorem substSpecial_idem (c : Char) : substSpecial (substSpecial c) = substSpecial c := by
  by_cases h : (c = ' ' || c = '.' || c = '-') = true
  · have hc : substSpecial c = '_' := by rw [substSpecial, if_pos h]
    rw [hc]
    decide
  · have hc : substSpecial c = c := by rw [substSpecial, if_neg h]
    rw [hc]
    exact hc

theorem collapseOnce_subset : ∀ (l : List Char), ∀ c ∈ collapseOnce l, c ∈ l
  | [] => by simp [collapseOnce]
  | [a] => by simp [collapseOnce]
  | a :: b :: rest => by
    intro c hc
    by_cases h : (a = '_' && b = '_') = true
    · rw [collapseOnce, if_pos h] at hc
      rcases List.mem_cons.mp hc with h1 | h1
      · simp only [beq_iff_eq, Bool.and_eq_true, decide_eq_true_eq] at h
        simp [h1, h.1]
      · exact List.mem_cons_of_mem _ (List.mem_cons_of_mem _ (collapseOnce_subset rest c h1))
    · rw [collapseOnce, if_neg h] at hc
      rcases List.mem_cons.mp hc with h1 | h1
      · simp [h1]
      · exact List.mem_cons_of_mem _ (collapseOnce_subset (b :: rest) c h1)

theorem collapseOnce_of_no_double :
    ∀ (l : List Char), hasDoubleUnderscore l = false → collapseOnce l = l
  | [] => by intro _; rfl
  | [a] => by intro _; rfl
  | a :: b :: rest => by
    intro h
    rw [hasDoubleUnderscore] at h
    have h1 : (a = '_' && b = '_') = false := by
      cases hab : (a = '_' && b = '_') <;> simp [hab] at h ⊢
    have h2 : hasDoubleUnderscore (b :: rest) = false := by
      cases hbr : hasDoubleUnderscore (b :: rest) <;> simp [hbr] at h ⊢
    rw [collapseOnce, if_neg (by simp [h1]), collapseOnce_of_no_double (b :: rest) h2]

theorem map_fixed {α : Type} {l : List α} {f : α → α} (h : ∀ c ∈ l, f c = c) :
    l.map f = l :=
  (List.map_congr_left h).trans (List.map_id l)

theorem sanitizeChars_clean (s : List Char) :
    ∀ c ∈ sanitizeChars s, substSpecial c = c ∧ keepChar c = true ∧ lowerChar c = c := by
  intro c hc
  rw [sanitizeChars] at hc
  obtain ⟨d, hd, rfl⟩ := List.mem_map.mp hc
  have hd2 : d ∈ ((trimChars s).map substSpecial).filter keepChar :=
    collapseOnce_subset _ d hd
  have hkeep : keepChar d = true := List.of_mem_filter hd2
  have hmem : d ∈ (trimChars s).map substSpecial := List.mem_of_mem_filter hd2
  obtain ⟨e, _, rfl⟩ := List.mem_map.mp hmem
  have hsub : substSpecial (substSpecial e) = substSpecial e := substSpecial_idem e
  obtain ⟨h1, h2⟩ := lowerChar_clean _ hsub hkeep
  exact ⟨h1, h2, lowerChar_idem _⟩

theorem sanitizeChars_fixed (s : List Char)
    (hd : hasDoubleUnderscore (sanitizeChars s) = false)
    (ht : trimChars (sanitizeChars s) = sanitizeChars s) :
    sanitizeChars (sanitizeChars s) = sanitizeChars s := by
  have hclean := sanitizeChars_clean s
  show (collapseOnce (((trimChars (sanitizeChars s)).map substSpecial).filter keepChar)).map
      lowerChar = sanitizeChars s
  rw [ht, map_fixed (fun c hc => (hclean c hc).1),
    List.filter_eq_self.mpr (fun c hc => (hclean c hc).2.1),
    collapseOnce_of_no_double _ hd, map_fixed (fun c hc => (hclean c hc).2.2)]

theorem sanitizeName_fixed (s : String)
    (hd : hasDoubleUnderscore (sanitizeName s).data = false)
    (ht : trimChars (sanitizeName s).data = (sanitizeName s).data) :
    sanitizeName (sanitizeName s) = sanitizeName s :=
  congrArg String.mk (sanitizeChars_fixed s.data hd ht)

/-- C3 (amended): `sanitize_columns` on the column name
with surrounding space, parentheses and a trailing period produces
`favorite_color_2023_` — the trailing period becomes a trailing
underscore, which nothing removes. -/
theorem sanitize_favorite_color_result :
    (sanitize_columns colorTools).df.cols = ["favorite_color_2023_"] := by decide

/-- C3 counterexample: the claimed output `favorite_color_2023` is not
what `sanitize_columns` produces on that column name. -/
theorem sanitize_favorite_color_cex :
    (sanitize_columns colorTools).df.cols ≠ ["favorite_color_2023"] := by decide

/-- C9 (amended): the single left-to-right collapse pass turns the three
underscores arising from `a...b` into two, so the sanitized name is
`a__b` — not fully collapsed to `a_b`, and not the claimed `a___b`. -/
theorem sanitize_triple_dot_result :
    (sanitize_columns dotsTools).df.cols = ["a__b"] ∧ ("a__b" : String) ≠ "a_b" :=
  ⟨by decide, by decide⟩

/-- C9 counterexample: `sanitize_columns` does not rename `a...b` to the
claimed `a___b`. -/
theorem sanitize_triple_dot_cex :
    (sanitize_columns dotsTools).df.cols ≠ ["a___b"] := by decide

/-- C5 counterexample: `sanitize_columns` is not idempotent — on the
table with column `a...b` the first application yields column `a__b` and
a second application collapses it further to `a_b`. -/
theorem sanitize_not_idempotent_cex :
    (sanitize_columns (sanitize_columns dotsTools)).df.cols = ["a_b"] ∧
    (sanitize_columns dotsTools).df.cols = ["a__b"] ∧
    (["a_b"] : List String) ≠ ["a__b"] :=
  ⟨by decide, by decide, by decide⟩

/-- C5 (amended): `sanitize_columns` is idempotent on every table whose
once-sanitized column names contain no double underscore and carry no
leading or trailing whitespace. -/
theorem sanitize_idempotent_of_clean (t : AnalysisTools)
    (h : ∀ c ∈ (sanitize_columns t).df.cols,
      hasDoubleUnderscore c.data = false ∧ trimChars c.data = c.data) :
    (sanitize_columns (sanitize_columns t)).df.cols = (sanitize_columns t).df.cols := by
  have h2 : (sanitize_columns (sanitize_columns t)).df.cols =
      ((sanitize_columns t).df.cols).map sanitizeName := rfl
  rw [h2]
  apply map_fixed
  intro x hx
  obtain ⟨c, _, rfl⟩ := List.mem_map.mp hx
  exact sanitizeName_fixed c (h _ hx).1 (h _ hx).2

/-- C5 witness: a concrete table on which the amended idempotence theorem
applies. -/
theorem sanitize_idempotent_witness :
    (sanitize_columns (sanitize_columns cleanTools)).df.cols =
      (sanitize_columns cleanTools).df.cols :=
  sanitize_idempotent_of_clean cleanTools (by decide)

/-- C4: if the eager validation scan over `numeric_col_list + [group_col]`
finds a missing column, `grouped_summary_stats` fails with the lookup
error naming that column and produces no aggregation output (the model is
pure, so the held state is trivially unchanged). -/
theorem grouped_summary_stats_missing_column (t : AnalysisTools)
    (ncl : List String) (g : String) (funcs : List (String × (List ℚ → ℚ)))
    (c : String)
    (hfind : (ncl ++ [g]).find? (fun x => ! t.df.hasCol x) = some c) :
    t.df.hasCol c = false ∧ c ∈ ncl ++ [g] ∧
      grouped_summary_stats t ncl g funcs = Except.error (missingColMsg c) ∧
      missingColMsg c = "Column " ++ c ++ " not found in the DataFrame." := by
  refine ⟨?_, List.mem_of_find?_eq_some hfind, ?_, rfl⟩
  · have hp := List.find?_some hfind
    simpa using hp
  · rw [grouped_summary_stats, hfind]

/-- C4 witness: requesting the numeric column `x` on a table having only
column `g` fails with the error naming `x`. -/
theorem grouped_summary_stats_missing_column_witness :
    gssTools.df.hasCol "x" = false ∧ "x" ∈ ["x"] ++ ["g"] ∧
      grouped_summary_stats gssTools ["x"] "g" [] = Except.error (missingColMsg "x") ∧
      missingColMsg "x" = "Column " ++ "x" ++ " not found in the DataFrame." :=
  grouped_summary_stats_missing_column gssTools ["x"] "g" [] "x" (by decide)

theorem multi_sample_eval :
    multi_response_analysis sampleTools ["Q1"] [] = some sampleMrResult := by
  have hcond : (sampleTools.df.hasCol sampleTools.question_col &&
      sampleTools.df.hasCol sampleTools.subquest_col &&
      sampleTools.df.hasCol sampleTools.respondent_col &&
      List.all [] sampleTools.df.hasCol) = true := by decide
  rw [multi_response_analysis, if_pos hcond]
  have hkeys : ((mrPairs sampleTools ["Q1"] []).map Prod.fst).dedup =
      [[Value.str ("Q1"), Value.str ("S1")], [Value.str ("Q1"), Value.str ("S2")]] := by decide
  rw [hkeys]
  have hc1 : mrCount sampleTools ["Q1"] [] [Value.str ("Q1"), Value.str ("S1")] = 2 := by decide
  have hc2 : mrCount sampleTools ["Q1"] [] [Value.str ("Q1"), Value.str ("S2")] = 1 := by decide
  have ht : sampleTools.total_respondents = 4 := rfl
  simp only [List.map_cons, List.map_nil, hc1, hc2, ht]
  norm_num [round2, round_eq, sampleMrResult, MrEntry.mk.injEq]

theorem multi_zero_eval :
    multi_response_analysis zeroTotalTools ["Q1"] [] = some zeroMrResult := by
  have hcond : (zeroTotalTools.df.hasCol zeroTotalTools.question_col &&
      zeroTotalTools.df.hasCol zeroTotalTools.subquest_col &&
      zeroTotalTools.df.hasCol zeroTotalTools.respondent_col &&
      List.all [] zeroTotalTools.df.hasCol) = true := by decide
  rw [multi_response_analysis, if_pos hcond]
  have hkeys : ((mrPairs zeroTotalTools ["Q1"] []).map Prod.fst).dedup =
      [[Value.str ("Q1"), Value.str ("S1")], [Value.str ("Q1"), Value.str ("S2")]] := by decide
  rw [hkeys]
  have hc1 : mrCount zeroTotalTools ["Q1"] [] [Value.str ("Q1"), Value.str ("S1")] = 2 := by decide
  have hc2 : mrCount zeroTotalTools ["Q1"] [] [Value.str ("Q1"), Value.str ("S2")] = 1 := by decide
  have ht : zeroTotalTools.total_respondents = 0 := rfl
  simp only [List.map_cons, List.map_nil, hc1, hc2, ht]
  norm_num [round2, round_eq, zeroMrResult, MrEntry.mk.injEq]

theorem nominal_sample_eval :
    nominal_frequency_analysis sampleTools ["Q1"] "subquestion" = some sampleNomResult := by
  have hcond : (sampleTools.df.hasCol sampleTools.question_col &&
      sampleTools.df.hasCol "subquestion" &&
      sampleTools.df.hasCol sampleTools.answer_col) = true := by decide
  rw [nominal_frequency_analysis, if_pos hcond, nomResult]
  have hkeys : (nomKeyed sampleTools ["Q1"] "subquestion").dedup =
      [NomKey.mk (Value.str ("Q1")) (Value.str ("S1")) (Value.str ("Yes")),
       NomKey.mk (Value.str ("Q1")) (Value.str ("S2")) (Value.str ("No"))] := by decide
  rw [hkeys]
  have hc1 : (nomKeyed sampleTools ["Q1"] "subquestion").count
      (NomKey.mk (Value.str ("Q1")) (Value.str ("S1")) (Value.str ("Yes"))) = 2 := by decide
  have hc2 : (nomKeyed sampleTools ["Q1"] "subquestion").count
      (NomKey.mk (Value.str ("Q1")) (Value.str ("S2")) (Value.str ("No"))) = 1 := by decide
  have hq : questionTotal (nomKeyed sampleTools ["Q1"] "subquestion") (Value.str ("Q1")) = 3 := by
    decide
  simp only [List.map_cons, List.map_nil, hc1, hc2, hq]
  norm_num [round2, round_eq, sampleNomResult, NomEntry.mk.injEq]

/-- C2: on the scenario table with `total_respondents = 4`,
`multi_response_analysis` counts distinct respondent identifiers per
`(question, subquestion)` group and divides by the total: group (Q1,S1)
gets Response Count 2 and Percentage 50.00, group (Q1,S2) gets Response
Count 1 and Percentage 25.00. -/
theorem multi_response_scenario :
    multi_response_analysis sampleTools ["Q1"] [] = some sampleMrResult :=
  multi_sample_eval

/-- C6: on the scenario table, `nominal_frequency_analysis` counts raw
rows per `(question, subquestion, answer)` without respondent
deduplication: Count(Q1,S1,Yes) = 2 and Count(Q1,S2,No) = 1 with
Question_Total 3, so the percentages are 66.67 and 33.33. -/
theorem nominal_scenario :
    nominal_frequency_analysis sampleTools ["Q1"] "subquestion" = some sampleNomResult ∧
      questionTotal (nomKeyed sampleTools ["Q1"] "subquestion") (Value.str ("Q1")) = 3 :=
  ⟨nominal_sample_eval, by decide⟩

theorem dedup_length_le_subset {α : Type} [DecidableEq α] {l₁ l₂ : List α}
    (h : ∀ x ∈ l₁, x ∈ l₂) : l₁.dedup.length ≤ l₂.dedup.length := by
  rw [← List.card_toFinset, ← List.card_toFinset]
  apply Finset.card_le_card
  intro x hx
  rw [List.mem_toFinset] at hx ⊢
  exact h x hx

/-- C7 (amended): every Response Count produced by
`multi_response_analysis` is bounded by the number of distinct respondent
identifiers of the filtered table; it is additionally bounded by
`total_respondents` whenever that constructed scalar is at least the
distinct-respondent count (the code itself never enforces the latter). -/
theorem response_count_bounds (t : AnalysisTools) (qs : List String)
    (gcols : List String) (res : List MrEntry)
    (h : multi_response_analysis t qs gcols = some res)
    {e : MrEntry} (he : e ∈ res) :
    e.count ≤ distinctRespondents t qs ∧
      ((distinctRespondents t qs : ℤ) ≤ t.total_respondents →
        (e.count : ℤ) ≤ t.total_respondents) := by
  have hcount : e.count ≤ distinctRespondents t qs := by
    by_cases hcond : (t.df.hasCol t.question_col && t.df.hasCol t.subquest_col &&
        t.df.hasCol t.respondent_col && gcols.all t.df.hasCol) = true
    · rw [multi_response_analysis, if_pos hcond] at h
      obtain rfl := Option.some.inj h
      obtain ⟨k, _, rfl⟩ := List.mem_map.mp he
      show mrCount t qs gcols k ≤ distinctRespondents t qs
      rw [mrCount, distinctRespondents]
      apply dedup_length_le_subset
      intro x hx
      rw [respondentsIn] at hx
      obtain ⟨q, hq, hq2⟩ := List.mem_filterMap.mp hx
      have hqmem : q ∈ mrPairs t qs gcols := List.mem_of_mem_filter hq
      rw [mrPairs] at hqmem
      obtain ⟨r, hr, hr2⟩ := List.mem_filterMap.mp hqmem
      obtain ⟨k0, _, rfl⟩ := Option.map_eq_some'.mp hr2
      exact List.mem_filterMap.mpr ⟨r, hr, hq2⟩
    · rw [multi_response_analysis, if_neg hcond] at h
      exact absurd h (by simp)
  refine ⟨hcount, fun hle => le_trans ?_ hle⟩
  exact_mod_cast hcount

/-- C7 witness: on the scenario table the (Q1,S1) Response Count 2 is
bounded by the 2 distinct respondents and, since the total 4 dominates
that, by the total as well. -/
theorem response_count_bounds_witness :
    (2 : ℕ) ≤ distinctRespondents sampleTools ["Q1"] ∧
      ((distinctRespondents sampleTools ["Q1"] : ℤ) ≤ sampleTools.total_respondents →
        ((2 : ℕ) : ℤ) ≤ sampleTools.total_respondents) :=
  response_count_bounds sampleTools ["Q1"] [] sampleMrResult multi_sample_eval
    (List.mem_cons_self _ _)

/-- C7 counterexample: with `total_respondents` constructed as 1 but two
distinct respondents answering, the (Q1,S1) Response Count is 2, which
exceeds `total_respondents` — nothing in the code ties the two. -/
theorem response_count_exceeds_total_cex :
    multi_response_analysis smallTotalTools ["Q1"] [] =
      some [{ key := [Value.str ("Q1"), Value.str ("S1")], count := 2, pct := 200 }] ∧
    smallTotalTools.total_respondents = 1 ∧ ¬((2 : ℤ) ≤ 1) := by
  refine ⟨?_, rfl, by decide⟩
  have hcond : (smallTotalTools.df.hasCol smallTotalTools.question_col &&
      smallTotalTools.df.hasCol smallTotalTools.subquest_col &&
      smallTotalTools.df.hasCol smallTotalTools.respondent_col &&
      List.all [] smallTotalTools.df.hasCol) = true := by decide
  rw [multi_response_analysis, if_pos hcond]
  have hkeys : ((mrPairs smallTotalTools ["Q1"] []).map Prod.fst).dedup =
      [[Value.str ("Q1"), Value.str ("S1")]] := by decide
  rw [hkeys]
  have hc1 : mrCount smallTotalTools ["Q1"] [] [Value.str ("Q1"), Value.str ("S1")] = 2 := by
    decide
  have ht : smallTotalTools.total_respondents = 1 := rfl
  simp only [List.map_cons, List.map_nil, hc1, ht]
  norm_num [round2, round_eq, MrEntry.mk.injEq]

/-- C10: when the instance is constructed with `total_respondents = 0`
and the analysis produces a group with a positive Response Count, no
rational value can satisfy the defining percentage equation
`p * total_respondents = count * 100`, and the division by the zero
total degenerates the stored Percentage — `total_respondents > 0` is a
required precondition for well-defined finite percentages. -/
theorem multi_response_zero_total_ill_defined (t : AnalysisTools)
    (qs : List String) (gcols : List String) (res : List MrEntry) (p : ℚ)
    (h0 : t.total_respondents = 0)
    (h : multi_response_analysis t qs gcols = some res)
    {e : MrEntry} (he : e ∈ res) (hc : 0 < e.count) :
    p * (t.total_respondents : ℚ) ≠ (e.count : ℚ) * 100 ∧ e.pct = 0 := by
  constructor
  · rw [h0]
    push_cast
    rw [mul_zero]
    intro hEq
    have hpos : (0 : ℚ) < (e.count : ℚ) * 100 := by
      have : (0 : ℚ) < (e.count : ℚ) := by exact_mod_cast hc
      nlinarith
    exact absurd hEq.symm (ne_of_gt hpos)
  · by_cases hcond : (t.df.hasCol t.question_col && t.df.hasCol t.subquest_col &&
        t.df.hasCol t.respondent_col && gcols.all t.df.hasCol) = true
    · rw [multi_response_analysis, if_pos hcond] at h
      obtain rfl := Option.some.inj h
      obtain ⟨k, _, rfl⟩ := List.mem_map.mp he
      show round2 ((mrCount t qs gcols k : ℚ) / (t.total_respondents : ℚ) * 100) = 0
      rw [h0]
      norm_num [round2, round_eq]
    · rw [multi_response_analysis, if_neg hcond] at h
      exact absurd h (by simp)

/-- C10 witness: the zero-total instance on the scenario table reaches the
division with a zero divisor at the (Q1,S1) group of count 2. -/
theorem multi_response_zero_total_witness :
    (7 : ℚ) * (zeroTotalTools.total_respondents : ℚ) ≠
        ((MrEntry.mk [Value.str ("Q1"), Value.str ("S1")] 2 0).count : ℚ) * 100 ∧
      (MrEntry.mk [Value.str ("Q1"), Value.str ("S1")] 2 0).pct = 0 :=
  multi_response_zero_total_ill_defined zeroTotalTools ["Q1"] [] zeroMrResult 7 rfl
    multi_zero_eval (List.mem_cons_self _ _) (by decide)

/-- C8: when the respondent column exists and has no missing values,
`nominal_frequency_analysis` and `nominal_frequency_pivot` produce the
same result — same keys, same Count, same Percentage. -/
theorem nominal_analysis_eq_pivot_of_no_missing_respondent (t : AnalysisTools)
    (qs : List String) (g : String)
    (h1 : t.df.hasCol t.respondent_col = true)
    (h2 : ∀ r ∈ t.df.rows, (getCell r t.respondent_col).isSome = true) :
    nominal_frequency_analysis t qs g = nominal_frequency_pivot t qs g := by
  have hk : pivKeyed t qs g = nomKeyed t qs g := by
    rw [pivKeyed, nomKeyed]
    apply List.filterMap_congr
    intro r hr
    have hrr : r ∈ t.df.rows := (List.mem_filter.mp hr).1
    rw [h2 r hrr]
    simp
  rw [nominal_frequency_analysis, nominal_frequency_pivot, h1, hk]
  simp [Bool.and_true]

/-- C8 witness: the scenario table has no missing respondent values, and
the two nominal variants agree on it. -/
theorem nominal_analysis_eq_pivot_witness :
    nominal_frequency_analysis sampleTools ["Q1"] "subquestion" =
      nominal_frequency_pivot sampleTools ["Q1"] "subquestion" :=
  nominal_analysis_eq_pivot_of_no_missing_respondent sampleTools ["Q1"] "subquestion"
    (by decide) (by decide)

theorem abs_list_sum_le (l : List ℚ) : |l.sum| ≤ (l.map (fun x => |x|)).sum := by
  induction l with
  | nil => simp
  | cons a tl ih =>
    simp only [List.sum_cons, List.map_cons]
    calc |a + tl.sum| ≤ |a| + |tl.sum| := abs_add _ _
    _ ≤ |a| + (tl.map (fun x => |x|)).sum := by linarith

theorem list_sum_map_sub {α : Type} (l : List α) (f g : α → ℚ) :
    (l.map (fun x => f x - g x)).sum = (l.map f).sum - (l.map g).sum := by
  induction l with
  | nil => simp
  | cons a tl ih =>
    simp only [List.map_cons, List.sum_cons, ih]
    ring

theorem list_sum_le_card_mul {α : Type} (l : List α) (f : α → ℚ) (c : ℚ)
    (h : ∀ x ∈ l, f x ≤ c) : (l.map f).sum ≤ l.length * c := by
  induction l with
  | nil => simp
  | cons a tl ih =>
    simp only [List.map_cons, List.sum_cons, List.length_cons]
    have h1 := h a (List.mem_cons_self _ _)
    have h2 := ih (fun x hx => h x (List.mem_cons_of_mem _ hx))
    push_cast
    nlinarith

theorem list_sum_map_mul_right {α : Type} (l : List α) (f : α → ℚ) (b : ℚ) :
    (l.map (fun x => f x * b)).sum = (l.map f).sum * b := by
  induction l with
  | nil => simp
  | cons a tl ih =>
    simp only [List.map_cons, List.sum_cons, ih]
    ring

theorem round2_err (x : ℚ) : |round2 x - x| ≤ 1 / 200 := by
  rw [round2]
  have h := abs_sub_round (100 * x)
  rw [abs_sub_comm] at h
  have hx : ((round (100 * x) : ℤ) : ℚ) / 100 - x = ((round (100 * x) : ℤ) - 100 * x) / 100 := by
    ring
  rw [hx, abs_div]
  have h100 : |(100 : ℚ)| = 100 := by norm_num
  rw [h100]
  linarith

theorem nomResult_pct_sum (K : List NomKey) (qv : Value)
    (hne : ∃ e ∈ nomResult K, e.question = qv) :
    |(((nomResult K).filter (fun e => e.question = qv)).map NomEntry.pct).sum - 100| ≤
      (((nomResult K).filter (fun e => e.question = qv)).length : ℚ) / 100 := by
  have hfil : (nomResult K).filter (fun e => e.question = qv) =
      (K.dedup.filter (fun k => k.question = qv)).map (fun k =>
        NomEntry.mk k.question k.group k.answer (K.count k)
          (round2 ((K.count k : ℚ) / (questionTotal K k.question : ℚ) * 100))) := by
    rw [nomResult, List.filter_map]
    rfl
  set D := K.dedup.filter (fun k => k.question = qv) with hD
  have hmapped : (((nomResult K).filter (fun e => e.question = qv)).map NomEntry.pct) =
      D.map (fun k => round2 ((K.count k : ℚ) / (questionTotal K qv : ℚ) * 100)) := by
    rw [hfil, List.map_map]
    apply List.map_congr_left
    intro k hk
    have hk1 : k.question = qv := by simpa using (List.mem_filter.mp hk).2
    simp [Function.comp, hk1]
  have hQpos : 0 < questionTotal K qv := by
    obtain ⟨e, he, hq⟩ := hne
    have hef : e ∈ (nomResult K).filter (fun e => e.question = qv) :=
      List.mem_filter.mpr ⟨he, by simp [hq]⟩
    rw [hfil] at hef
    obtain ⟨k, hkD, _⟩ := List.mem_map.mp hef
    have hk1 : k.question = qv := by simpa using (List.mem_filter.mp hkD).2
    have hkK : k ∈ K := List.mem_dedup.mp (List.mem_filter.mp hkD).1
    have hmem : k ∈ K.filter (fun k => k.question = qv) :=
      List.mem_filter.mpr ⟨hkK, by simp [hk1]⟩
    rw [questionTotal]
    exact List.length_pos.mpr (fun hnil => by simp [hnil] at hmem)
  have hsum_nat : (D.map (fun k => K.count k)).sum = questionTotal K qv := by
    rw [questionTotal, ← List.countP_eq_length_filter, hD]
    exact List.sum_map_count_dedup_filter_eq_countP _ K
  have hsum_q : (D.map (fun k => (K.count k : ℚ))).sum = (questionTotal K qv : ℚ) := by
    calc (D.map (fun k => (K.count k : ℚ))).sum
        = ((D.map (fun k => K.count k)).map (fun n : ℕ => (n : ℚ))).sum := by
          rw [List.map_map]
          rfl
      _ = ((D.map (fun k => K.count k)).sum : ℚ) := (Nat.cast_list_sum _).symm
      _ = (questionTotal K qv : ℚ) := by rw [hsum_nat]
  have hQ0 : (questionTotal K qv : ℚ) ≠ 0 := by
    exact_mod_cast Nat.pos_iff_ne_zero.mp hQpos
  have hsum_v : (D.map (fun k =>
      (K.count k : ℚ) / (questionTotal K qv : ℚ) * 100)).sum = 100 := by
    have hfn : (fun k => (K.count k : ℚ) / (questionTotal K qv : ℚ) * 100) =
        fun k => (K.count k : ℚ) * (100 / (questionTotal K qv : ℚ)) := by
      funext k
      ring
    rw [hfn, list_sum_map_mul_right, hsum_q]
    field_simp
  rw [hmapped, hfil, List.length_map]
  have hsub : (D.map (fun k => round2 ((K.count k : ℚ) / (questionTotal K qv : ℚ) * 100))).sum
      - 100 =
      (D.map (fun k => round2 ((K.count k : ℚ) / (questionTotal K qv : ℚ) * 100) -
        (K.count k : ℚ) / (questionTotal K qv : ℚ) * 100)).sum := by
    rw [list_sum_map_sub, hsum_v]
  rw [hsub]
  calc |(D.map (fun k => round2 ((K.count k : ℚ) / (questionTotal K qv : ℚ) * 100) -
        (K.count k : ℚ) / (questionTotal K qv : ℚ) * 100)).sum|
      ≤ ((D.map (fun k => round2 ((K.count k : ℚ) / (questionTotal K qv : ℚ) * 100) -
        (K.count k : ℚ) / (questionTotal K qv : ℚ) * 100)).map (fun x => |x|)).sum :=
        abs_list_sum_le _
    _ = (D.map (fun k => |round2 ((K.count k : ℚ) / (questionTotal K qv : ℚ) * 100) -
        (K.count k : ℚ) / (questionTotal K qv : ℚ) * 100|)).sum := by
        rw [List.map_map]
        rfl
    _ ≤ D.length * (1 / 200) := list_sum_le_card_mul D _ (1 / 200)
        (fun k _ => round2_err _)
    _ ≤ (D.length : ℚ) / 100 := by
        have hn : (0 : ℚ) ≤ (D.length : ℚ) := Nat.cast_nonneg _
        linarith

/-- C1 (amended): in every successful `nominal_frequency_analysis` result,
for every question value carrying at least one entry (i.e. at least one
filtered row whose group and answer cells are non-missing), the
percentages under that question sum to 100 up to a rounding error of at
most 0.01 times the number of groups under the question. -/
theorem nominal_percentages_sum_to_100_within_question (t : AnalysisTools)
    (qs : List String) (g : String) (res : List NomEntry) (qv : Value)
    (h : nominal_frequency_analysis t qs g = some res)
    (hq : ∃ e ∈ res, e.question = qv) :
    |((res.filter (fun e => e.question = qv)).map NomEntry.pct).sum - 100| ≤
      ((res.filter (fun e => e.question = qv)).length : ℚ) / 100 := by
  by_cases hcond : (t.df.hasCol t.question_col && t.df.hasCol g &&
      t.df.hasCol t.answer_col) = true
  · rw [nominal_frequency_analysis, if_pos hcond] at h
    obtain rfl := Option.some.inj h
    exact nomResult_pct_sum _ qv hq
  · rw [nominal_frequency_analysis, if_neg hcond] at h
    exact absurd h (by simp)

/-- C1 witness: on the scenario table the Q1 percentages 66.67 and 33.33
sum to 100 within the allowed 0.02 tolerance for 2 groups. -/
theorem nominal_percentages_sum_witness :
    |((sampleNomResult.filter (fun e => e.question = Value.str ("Q1"))).map
        NomEntry.pct).sum - 100| ≤
      ((sampleNomResult.filter (fun e => e.question = Value.str ("Q1"))).length : ℚ) / 100 :=
  nominal_percentages_sum_to_100_within_question sampleTools ["Q1"] "subquestion"
    sampleNomResult (Value.str ("Q1")) nominal_sample_eval
    ⟨{ question := Value.str ("Q1"), group := Value.str ("S1"),
       answer := Value.str ("Yes"), count := 2, pct := 6667 / 100 },
     List.mem_cons_self _ _, rfl⟩

/-- C1 counterexample: a table holding all three role columns whose single
filtered row has missing group and answer cells produces an empty grouped
result, so the percentages under Q1 sum to 0, not 100 — the claim fails
for a question value that has a filtered row but no groupable row. -/
theorem nominal_percentages_missing_key_cex :
    nominal_frequency_analysis missingCellsTools ["Q1"] "g" = some [] ∧
    (filteredRows missingCellsTools ["Q1"]).length = 1 ∧
    ¬(|((([] : List NomEntry).filter (fun e => e.question = Value.str ("Q1"))).map
          NomEntry.pct).sum - 100| ≤
        ((([] : List NomEntry).filter (fun e => e.question = Value.str ("Q1"))).length : ℚ) /
          100) := by
  refine ⟨?_, by decide, by norm_num⟩
  have hcond : (missingCellsTools.df.hasCol missingCellsTools.question_col &&
      missingCellsTools.df.hasCol "g" &&
      missingCellsTools.df.hasCol missingCellsTools.answer_col) = true := by decide
  rw [nominal_frequency_analysis, if_pos hcond]
  have hkeyed : nomKeyed missingCellsTools ["Q1"] "g" = [] := by decide
  rw [hkeyed]
  rfl
